import Mathlib

/-!
Verification development for the `solio-autosolve` repository.

The parts of the program the claims speak about are embedded shallowly:

* `parser.py` (`parse_results_html` and its data classes) is modelled as a
  pure function over an HTML document tree (`Node`), the shape BeautifulSoup
  hands to the code after `BeautifulSoup(html_content, "html.parser")`.
  Tag/class matching, `get_text(strip=True)`, `str(tag)` substring tests,
  `find_parent`, `find_next_sibling`, the `re.search` patterns, `float()`
  and `int()` conversions and the stable sort are all modelled explicitly.
* `solve.py`'s `apply_solver_settings` is modelled as a function from a
  record of the page observations the code makes (locator counts,
  visibility flags, ARIA attribute reads) to its success flags together
  with the trace of UI gestures it issues.
* `solve.py`'s `wait_for_solve_completion` poll loop is modelled with time
  advancing by the fixed 5 second sleep interval, counting how many
  visibility checks of the "Preview Result" marker are performed.

Numbers that are Python floats are modelled as rationals (the decimal
strings the parser feeds to `float()` are exactly representable there).
-/

/-! ### Character-list string helpers (Python `str` operations) -/

/-- Model of Python `str.strip()` (also the strip done by
`get_text(strip=True)`): drop whitespace from both ends. -/
def charsTrim (l : List Char) : List Char :=
  ((l.dropWhile Char.isWhitespace).reverse.dropWhile Char.isWhitespace).reverse

def pyStrip (s : String) : String := .mk (charsTrim s.data)

/-- Concatenation of a list of strings (separator `""`). -/
def strJoin (ls : List String) : String :=
  .mk (ls.foldr (fun s acc => s.data ++ acc) [])

/-- `" ".join(classes)`, as used by BeautifulSoup when matching a callable
or a plain string against the whole multi-valued `class` attribute. -/
def joinClasses : List String → String
  | [] => ""
  | [s] => s
  | s :: rest => .mk (s.data ++ ' ' :: (joinClasses rest).data)

/-- Does `pre` occur at the head of `l`? -/
def isPrefixL : List Char → List Char → Bool
  | [], _ => true
  | _ :: _, [] => false
  | a :: as, b :: bs => a == b && isPrefixL as bs

/-- Python `needle in hay` on strings: substring containment. -/
def containsL (needle : List Char) : List Char → Bool
  | [] => needle.isEmpty
  | c :: rest => isPrefixL needle (c :: rest) || containsL needle rest

def substrIn (needle hay : String) : Bool := containsL needle.data hay.data

/-- Strip `pre` from the head of `l`, if it is a prefix. -/
def dropPref : List Char → List Char → Option (List Char)
  | [], l => some l
  | _ :: _, [] => none
  | a :: as, b :: bs => if a == b then dropPref as bs else none

/-- `s.replace("", new)` in Python puts `new` around every character. -/
def pyReplaceEmpty (new : List Char) : List Char → List Char
  | [] => new
  | c :: rest => new ++ c :: pyReplaceEmpty new rest

/-- Leftmost non-overlapping replacement, fuelled by the input length
(each step consumes at least one character, so the fuel never runs out). -/
def replaceAux (old new : List Char) : Nat → List Char → List Char
  | _, [] => []
  | 0, l => l
  | fuel + 1, c :: rest =>
    match dropPref old (c :: rest) with
    | some rem => new ++ replaceAux old new fuel rem
    | none => c :: replaceAux old new fuel rest

/-- Model of Python `s.replace(old, new)` (all occurrences, left to right,
non-overlapping). -/
def pyReplace (s old new : String) : String :=
  if old.data.isEmpty then .mk (pyReplaceEmpty new.data s.data)
  else .mk (replaceAux old.data new.data s.data.length s.data)

/-! ### Numeric conversions and the `re.search` patterns -/

def digitsToNat (ds : List Char) : Nat :=
  ds.foldl (fun a c => a * 10 + (c.toNat - 48)) 0

/-- `re.search(r"\d+", text)`: the first maximal run of digits, if any. -/
def digitSearch : List Char → Option (List Char)
  | [] => none
  | c :: rest =>
    if c.isDigit then some (c :: rest.takeWhile Char.isDigit)
    else digitSearch rest

def digitSearchS (s : String) : Option String := (digitSearch s.data).map .mk

def isNumDot (c : Char) : Bool := c.isDigit || c == '.'

/-- `re.search(r"[\d.]+", text)`: the first maximal run of digits/dots. -/
def numDotSearch : List Char → Option (List Char)
  | [] => none
  | c :: rest =>
    if isNumDot c then some (c :: rest.takeWhile isNumDot)
    else numDotSearch rest

def numDotSearchS (s : String) : Option String := (numDotSearch s.data).map .mk

/-- Model of Python `int(s)` restricted to the optionally signed decimal
strings this program can feed it (the call sites only ever pass matches of
`\d+`). -/
def pyInt (s : String) : Option Int :=
  let cs := charsTrim s.data
  let (sign, ds) : Int × List Char :=
    match cs with
    | '-' :: rest => (-1, rest)
    | '+' :: rest => (1, rest)
    | _ => (1, cs)
  if ds ≠ [] && ds.all Char.isDigit then some (sign * digitsToNat ds) else none

/-- Fractional digits `d₁…dₖ` as the rational `0.d₁…dₖ`. -/
def fracToRat (ds : List Char) : Rat :=
  (digitsToNat ds : Rat) / ((10 : Rat) ^ ds.length)

/-- Model of Python `float(s)` restricted to finite decimal notations
(optional sign, integer and fractional digit runs, optional exponent); the
special spellings `inf`/`nan` and digit-group underscores are not produced
by this program's markup paths and are treated as unparseable. -/
def pyFloat (s : String) : Option Rat :=
  let cs := charsTrim s.data
  let (sign, cs) : Rat × List Char :=
    match cs with
    | '-' :: rest => (-1, rest)
    | '+' :: rest => (1, rest)
    | _ => (1, cs)
  let ip := cs.takeWhile Char.isDigit
  let cs := cs.dropWhile Char.isDigit
  let (fp, cs) : List Char × List Char :=
    match cs with
    | '.' :: rest => (rest.takeWhile Char.isDigit, rest.dropWhile Char.isDigit)
    | _ => ([], cs)
  if ip.isEmpty && fp.isEmpty then none
  else
    let base : Rat := sign * ((digitsToNat ip : Rat) + fracToRat fp)
    match cs with
    | [] => some base
    | e :: rest =>
      if e == 'e' || e == 'E' then
        let (esign, eds) : Int × List Char :=
          match rest with
          | '-' :: r => (-1, r)
          | '+' :: r => (1, r)
          | _ => (1, rest)
        if eds ≠ [] && eds.all Char.isDigit && eds.dropWhile Char.isDigit == [] then
          some (base * (10 : Rat) ^ (esign * digitsToNat eds))
        else none
      else none

/-! ### The document tree and BeautifulSoup-style traversal

`Node` is the parsed DOM: an element carries its tag name, the multi-valued
`class` attribute, its other attributes, and its children in document
order.  The root node passed to the parser plays the role of the
`BeautifulSoup` document object: searches visit its strict descendants. -/

inductive Node where
  | text : String → Node
  | elem : String → List String → List (String × String) → List Node → Node
deriving Repr

def childrenOf : Node → List Node
  | .text _ => []
  | .elem _ _ _ cs => cs

def nodeClasses : Node → List String
  | .text _ => []
  | .elem _ cl _ _ => cl

def isTag (t : String) : Node → Bool
  | .text _ => false
  | .elem tag _ _ _ => tag == t

/-- `tag.get(key, default)` is `(getAttr key tag).getD default`. -/
def getAttr (k : String) : Node → Option String
  | .text _ => none
  | .elem _ _ attrs _ => (attrs.find? (fun kv => kv.1 == k)).map (fun kv => kv.2)

/-- A descendant together with its ancestor chain (nearest first, ending at
the searched root) and its later siblings, i.e. everything `find_parent`
and `find_next_sibling` can reach. -/
structure Desc where
  node : Node
  ancestors : List Node
  following : List Node
deriving Repr

mutual
/-- Strict descendants of a node, in document (preorder) order. -/
def descsN : Node → List Node → List Desc
  | .text _, _ => []
  | .elem t cl a cs, ancs => descsL cs (.elem t cl a cs :: ancs)

def descsL : List Node → List Node → List Desc
  | [], _ => []
  | c :: rest, ancs => ⟨c, ancs, rest⟩ :: (descsN c ancs ++ descsL rest ancs)
end

def descs (root : Node) : List Desc := descsL (childrenOf root) [root]

mutual
/-- Model of `str(tag)`: the HTML serialisation BeautifulSoup prints, used
by the code only for substring tests like `"pound-sterling" in str(p)`. -/
def render : Node → String
  | .text s => s
  | .elem t cl a cs =>
    "<" ++ t
      ++ (if cl.isEmpty then "" else " class=\"" ++ joinClasses cl ++ "\"")
      ++ strJoin (a.map (fun kv => " " ++ kv.1 ++ "=\"" ++ kv.2 ++ "\""))
      ++ ">" ++ renderL cs ++ "</" ++ t ++ ">"

def renderL : List Node → String
  | [] => ""
  | c :: rest => render c ++ renderL rest
end

mutual
/-- The text-node strings of a subtree in document order
(`tag.strings`). -/
def nodeStrings : Node → List String
  | .text s => [s]
  | .elem _ _ _ cs => nodeStringsL cs

def nodeStringsL : List Node → List String
  | [] => []
  | c :: rest => nodeStrings c ++ nodeStringsL rest
end

/-- `tag.get_text(strip=True)`: each string stripped, empties dropped,
joined with no separator. -/
def getTextStrip (n : Node) : String :=
  strJoin (((nodeStrings n).map pyStrip).filter (fun s => !s.isEmpty))

/-- BeautifulSoup matching of a callable passed as `class_`: it matches if
the predicate accepts one of the individual classes or the whole
space-joined class string (and a missing attribute behaves like the empty
one, on which these predicates are false). -/
def classCallable (f : String → Bool) (n : Node) : Bool :=
  (nodeClasses n).any f || f (joinClasses (nodeClasses n))

/-- BeautifulSoup matching of a plain string passed for `class`. -/
def classEquals (s : String) (n : Node) : Bool :=
  (nodeClasses n).any (fun c => c == s) || joinClasses (nodeClasses n) == s

/-! ### The parser data model (`parser.py` dataclasses) -/

/-- A single transfer recommendation. -/
structure Transfer where
  out_player : String
  in_player : String
deriving Repr, DecidableEq

/-- Optimization plan for a single gameweek. -/
structure GameweekPlan where
  gameweek : String
  grade : String
  points_range : String
  transfers_used : String
  bank : String
  transfers : List Transfer
deriving Repr, DecidableEq

/-- Complete results from an optimization solve. -/
structure SolveResults where
  total_points : Rat
  total_transfers : Int
  final_bank : Rat
  gameweek_plans : List GameweekPlan
deriving Repr, DecidableEq

/-! ### `parse_results_html`, piecewise

Each named definition below is one lookup or extraction step of
`parser.py`'s `parse_results_html`, in source order. -/

/-- `soup.find("div", class_=lambda x: bool(x and "evaluationNode" in x))`. -/
def findEvalNode (soup : Node) : Option Node :=
  ((descs soup).find? (fun d =>
    isTag "div" d.node && classCallable (fun x => substrIn "evaluationNode" x) d.node)).map
    (fun d => d.node)

/-- `eval_node.find("span", {"class": "text-2xl"})`. -/
def evalPtsSpan (en : Node) : Option Node :=
  ((descs en).find? (fun d => isTag "span" d.node && classEquals "text-2xl" d.node)).map
    (fun d => d.node)

/-- `eval_node.find_all("p", {"class": "flex"})`. -/
def summaryPs (en : Node) : List Node :=
  (((descs en).filter (fun d => isTag "p" d.node && classEquals "flex" d.node)).map
    (fun d => d.node))

/-- The `total_points` accumulation: `0.0` unless the evaluation node and
its points span exist and `float()` succeeds on the span's text. -/
def evalTotalPoints (soup : Node) : Rat :=
  match findEvalNode soup with
  | none => 0
  | some en =>
    match evalPtsSpan en with
    | none => 0
    | some sp => (pyFloat (getTextStrip sp)).getD 0

/-- One step of the summary loop body: an icon marker (`pound-sterling` /
`arrow-left-right`) inside `str(p)` selects which accumulator the first
numeric run of the line's text overwrites. -/
def summaryStep (acc : Rat × Int) (p : Node) : Rat × Int :=
  let text := getTextStrip p
  if substrIn "pound-sterling" (render p) then
    match numDotSearchS text with
    | some m =>
      match pyFloat m with
      | some v => (v, acc.2)
      | none => acc
    | none => acc
  else if substrIn "arrow-left-right" (render p) then
    match digitSearchS text with
    | some m =>
      match pyInt m with
      | some v => (acc.1, v)
      | none => acc
    | none => acc
  else acc

/-- The `(final_bank, total_transfers)` accumulation over the summary
lines, starting from the `(0.0, 0)` defaults. -/
def evalBankTransfers (soup : Node) : Rat × Int :=
  match findEvalNode soup with
  | none => (0, 0)
  | some en => (summaryPs en).foldl summaryStep (0, 0)

/-- `soup.find_all("div", class_=lambda x: bool(x and "planNode" in x))`,
keeping each plan node's ancestor chain for the `find_parent` calls made
inside the per-plan extraction. -/
def planNodesWithAnc (soup : Node) : List (Node × List Node) :=
  (((descs soup).filter (fun d =>
    isTag "div" d.node && classCallable (fun x => substrIn "planNode" x) d.node)).map
    (fun d => (d.node, d.ancestors)))

/-- `node.find("p", class_=lambda x: bool(x and "text-lg" in x and
"font-light" in x))`: the gameweek label element. -/
def planGwElem (node : Node) : Option Node :=
  ((descs node).find? (fun d =>
    isTag "p" d.node &&
      classCallable (fun x => substrIn "text-lg" x && substrIn "font-light" x) d.node)).map
    (fun d => d.node)

/-- `node.find("span", class_=lambda x: bool(x and "text-2xl" in x and
"font-semibold" in x))`, kept with its ancestors for `find_parent`. -/
def planGradeDesc (node : Node) : Option Desc :=
  (descs node).find? (fun d =>
    isTag "span" d.node &&
      classCallable (fun x => substrIn "text-2xl" x && substrIn "font-semibold" x) d.node)

/-- `node.find_all("p", {"class": "flex"})`, with ancestors. -/
def planInfoPs (node : Node) : List Desc :=
  (descs node).filter (fun d => isTag "p" d.node && classEquals "flex" d.node)

/-- One step of the transfers-used/bank loop: skip the line unless it has a
`div.flex.gap-2` parent; then an svg's `aria-label` routes the line's text
into one of the two string fields. -/
def planInfoStep (outerAncs : List Node) (acc : String × String) (d : Desc) : String × String :=
  match (d.ancestors ++ outerAncs).find? (fun a =>
      isTag "div" a && classCallable (fun x => substrIn "flex" x && substrIn "gap-2" x) a) with
  | none => acc
  | some _ =>
    let text := getTextStrip d.node
    match ((descs d.node).find? (fun e => isTag "svg" e.node)).map (fun e => e.node) with
    | none => acc
    | some svg =>
      let lbl := (getAttr "aria-label" svg).getD ""
      if lbl == "Transfers" then (text, acc.2)
      else if lbl == "Bank" then (acc.1, text)
      else acc

/-- `node.find("div", class_=lambda x: bool(x and "max-w-22" in x))`. -/
def planTransferDiv (node : Node) : Option Node :=
  ((descs node).find? (fun d =>
    isTag "div" d.node && classCallable (fun x => substrIn "max-w-22" x) d.node)).map
    (fun d => d.node)

/-- The outgoing players: the texts of all `p` descendants of the
`opacity-50` sub-division of the transfer region (empty when either
region is absent). -/
def planOutPlayers (node : Node) : List String :=
  match planTransferDiv node with
  | none => []
  | some td =>
    match ((descs td).find? (fun d =>
        isTag "div" d.node && classCallable (fun x => substrIn "opacity-50" x) d.node)).map
        (fun d => d.node) with
    | none => []
    | some od => ((descs od).filter (fun d => isTag "p" d.node)).map (fun d => getTextStrip d.node)

/-- The incoming-players region: the first `div` sibling after the
`arrow-down` svg inside the transfer region. -/
def planInDiv (node : Node) : Option Node :=
  match planTransferDiv node with
  | none => none
  | some td =>
    match (descs td).find? (fun d =>
        isTag "svg" d.node && classCallable (fun x => substrIn "arrow-down" x) d.node) with
    | none => none
    | some arrow => arrow.following.find? (isTag "div")

/-- The incoming players (empty when the region is absent). -/
def planInPlayers (node : Node) : List String :=
  match planInDiv node with
  | none => []
  | some indiv =>
    ((descs indiv).filter (fun d => isTag "p" d.node)).map (fun d => getTextStrip d.node)

/-- `for out_p, in_p in zip(out_players, in_players): transfers.append(...)`.
When the incoming region is absent Python leaves `transfers = []`, which
coincides with zipping against the empty incoming list. -/
def planTransfers (node : Node) : List Transfer :=
  ((planOutPlayers node).zip (planInPlayers node)).map (fun oi => ⟨oi.1, oi.2⟩)

/-- The per-plan-node extraction (the body of the `for node in plan_nodes`
loop).  Returns `none` exactly on the `if not gw_elem: continue` path.
`outerAncs` is the plan node's own ancestor chain in the document, which
the `find_parent` calls can climb past the plan node. -/
def parsePlanNode (node : Node) (outerAncs : List Node) : Option GameweekPlan :=
  match planGwElem node with
  | none => none
  | some gw_elem =>
    let gameweek := getTextStrip gw_elem
    let gradeDesc := planGradeDesc node
    let grade :=
      match gradeDesc with
      | none => ""
      | some d => getTextStrip d.node
    let points_range :=
      match gradeDesc with
      | none => ""
      | some d =>
        match (d.ancestors ++ outerAncs).find? (isTag "span") with
        | none => ""
        | some pc => pyStrip (pyReplace (getTextStrip pc) grade "")
    let tb := (planInfoPs node).foldl (planInfoStep outerAncs) ("", "")
    some
      { gameweek := gameweek
        grade := grade
        points_range := points_range
        transfers_used := tb.1
        bank := tb.2
        transfers := planTransfers node }

/-- `gw_sort_key`: the first embedded integer of the gameweek label, `0`
when the label has no digits. -/
def gw_sort_key (plan : GameweekPlan) : Nat :=
  match digitSearchS plan.gameweek with
  | some m => digitsToNat m.data
  | none => 0

/-- `parse_results_html`: the whole parse.  `gameweek_plans.sort(key=...)`
is Python's stable ascending sort, i.e. a stable merge sort with the
`key a ≤ key b` comparison. -/
def parse_results_html (soup : Node) : SolveResults :=
  let bt := evalBankTransfers soup
  { total_points := evalTotalPoints soup
    total_transfers := bt.2
    final_bank := bt.1
    gameweek_plans :=
      ((planNodesWithAnc soup).filterMap (fun na => parsePlanNode na.1 na.2)).mergeSort
        (fun a b => gw_sort_key a ≤ gw_sort_key b) }

/-! ### `solve.py`: the settings-application protocol

`apply_solver_settings` drives two independent UI flows.  The page is
modelled by the observations the code makes of it (locator counts,
visibility, ARIA attribute reads), and the function's effect is recorded
as the trace of gestures it issues next to the two per-field success
flags and the returned boolean. -/

/-- One UI gesture issued by `apply_solver_settings`. -/
inductive UIAction where
  | clickHorizonButton
  | focusSlider
  | pressHome
  | pressArrowRight
  | pressEscape
  | clickSettingsWheel
  | clickSettingsButton
  | clickOptimisationTab
  | clickPreset : String → UIAction
deriving Repr, DecidableEq

/-- What the code observes on the page: `locator.count()` results,
`is_visible()` results, and the slider's ARIA attributes (an absent or
empty attribute is `none`, matching the `or`-defaults in the code).
`aria_valuenow_after` is the value the slider reports when re-read after
the keyboard stepping. -/
structure SolverPage where
  horizon_button_count : Nat
  slider_count : Nat
  aria_valuemin : Option Int
  aria_valuemax : Option Int
  aria_valuenow : Option Int
  aria_valuenow_after : Option Int
  settings_wheel_count : Nat
  settings_button_visible : Bool
  optimisation_tab_count : Nat
  preset_button_count : String → Nat

/-- The settings mapping loaded from `solver_settings.yaml` (plus CLI
overrides), restricted to the keys `apply_solver_settings` reads;
`none` models an absent key, so `settings.get(k, d)` is `.getD d`. -/
structure SettingsDict where
  horizon_weeks : Option Int
  decision_disruption_probability : Option Rat
  timeout : Option Int

/-- Python `min(iterable, key=...)` over a nonempty list, given as head
and tail: keeps the earliest element whose key is minimal (later elements
replace the current best only when strictly smaller). -/
def pyMinByAux (key : Rat → Rat) (best : Rat) : List Rat → Rat
  | [] => best
  | x :: xs => if key x < key best then pyMinByAux key x xs else pyMinByAux key best xs

/-- The five preset anchors with their labels, in the insertion order of
the `presets` dict in `apply_solver_settings`. -/
def presets : List (Rat × String) :=
  [(0, "Clear Skies"), (1/4, "Breezy"), (1/2, "Cloudy"), (3/4, "Foggy"), (1, "Storm")]

def presetKeys : List Rat := presets.map (fun kv => kv.1)

/-- `min(presets.keys(), key=lambda x: abs(x - decision_prob))`. -/
def closest_value (decision_prob : Rat) : Rat :=
  pyMinByAux (fun x => |x - decision_prob|) 0 [1/4, 1/2, 3/4, 1]

/-- `presets[closest_value]`. -/
def presetName (v : Rat) : String :=
  ((presets.find? (fun kv => kv.1 == v)).map (fun kv => kv.2)).getD ""

/-- The horizon flow (first half of `apply_solver_settings`): open the
"N GW(s)" dialog, read the slider bounds, clamp the desired horizon, and
step from the minimum to the target with arrow keys, verifying by
re-reading the slider. -/
def horizonPart (page : SolverPage) (settings : SettingsDict) : Bool × List UIAction :=
  let horizon_weeks := settings.horizon_weeks.getD 10
  if page.horizon_button_count > 0 then
    if page.slider_count > 0 then
      let min_val := page.aria_valuemin.getD 1
      let max_val := page.aria_valuemax.getD 10
      let current_val := page.aria_valuenow.getD 10
      let target_val := max min_val (min horizon_weeks max_val)
      if current_val ≠ target_val then
        let steps := (target_val - min_val).toNat
        let new_val := page.aria_valuenow_after.getD current_val
        (new_val == target_val,
          [.clickHorizonButton, .focusSlider, .pressHome]
            ++ List.replicate steps .pressArrowRight ++ [.pressEscape])
      else (true, [.clickHorizonButton, .pressEscape])
    else (false, [.clickHorizonButton, .pressEscape])
  else (false, [])

/-- The decision-disruption flow (second half of `apply_solver_settings`):
settings wheel → "Settings" button → "Optimisation" tab → nearest preset
button, each step skipped non-fatally when its control is absent. -/
def decisionPart (page : SolverPage) (settings : SettingsDict) : Bool × List UIAction :=
  let decision_prob := settings.decision_disruption_probability.getD (1/2)
  if page.settings_wheel_count > 0 then
    if page.settings_button_visible then
      if page.optimisation_tab_count > 0 then
        let preset_name := presetName (closest_value decision_prob)
        if page.preset_button_count preset_name > 0 then
          (true, [.clickSettingsWheel, .clickSettingsButton, .clickOptimisationTab,
                  .clickPreset preset_name, .pressEscape])
        else (false, [.clickSettingsWheel, .clickSettingsButton, .clickOptimisationTab,
                      .pressEscape])
      else (false, [.clickSettingsWheel, .clickSettingsButton, .pressEscape])
    else (false, [.clickSettingsWheel, .pressEscape])
  else (false, [])

/-- The outcome of `apply_solver_settings`: the two per-field flags, the
returned boolean (`horizon_success or decision_success`), and the full
gesture trace. -/
structure ApplyOutcome where
  horizon_success : Bool
  decision_success : Bool
  returned : Bool
  actions : List UIAction
deriving Repr, DecidableEq

/-- `apply_solver_settings(page, settings)`: both flows run
unconditionally, in source order. -/
def apply_solver_settings (page : SolverPage) (settings : SettingsDict) : ApplyOutcome :=
  let h := horizonPart page settings
  let d := decisionPart page settings
  { horizon_success := h.1
    decision_success := d.1
    returned := h.1 || d.1
    actions := h.2 ++ d.2 }

/-! ### `solve.py`: the completion poll and the capture pipeline -/

/-- The poll loop body of `wait_for_solve_completion`: while the elapsed
time is below the timeout, test the "Preview Result" marker (the `checks`
counter numbers each visibility test) and otherwise sleep 5 seconds.
Returns the `completed` flag and how many checks were performed. -/
def waitFrom (visible : Nat → Bool) (timeout_seconds : Nat) (elapsed checks : Nat) :
    Bool × Nat :=
  if elapsed < timeout_seconds then
    if visible checks then (true, checks + 1)
    else waitFrom visible timeout_seconds (elapsed + 5) (checks + 1)
  else (false, checks)
termination_by timeout_seconds - elapsed
decreasing_by omega

/-- `wait_for_solve_completion(page, timeout_seconds)`, instrumented with
the number of completion checks performed. -/
def wait_for_solve_completion (visible : Nat → Bool) (timeout_seconds : Nat) : Bool × Nat :=
  waitFrom visible timeout_seconds 0 0

/-- What `run_solve_on_page` observes and captures: whether the Optimise
button is visible, the completion marker's visibility at each poll, and
the page markup that `fetch_results` captures. -/
structure SolvePage where
  optimise_visible : Bool
  preview_visible : Nat → Bool
  content : String

/-- The result dictionary produced by `fetch_results`, restricted to what
the claims are about. -/
structure CaptureResult where
  completed : Bool
  checks : Nat
  html : String
deriving Repr, DecidableEq

/-- `run_solve_on_page` (settings application disabled, as with
`apply_settings=False`): click Optimise (aborting with `None` when the
button is not visible), wait for completion, and capture whatever markup
is present even when the wait timed out. -/
def run_solve_on_page (page : SolvePage) (timeout_seconds : Nat) : Option CaptureResult :=
  if page.optimise_visible then
    let w := wait_for_solve_completion page.preview_visible timeout_seconds
    some { completed := w.1, checks := w.2, html := page.content }
  else none

/-! ### Concrete sample documents used by the witnesses -/

/-- A plan region with a gameweek label, three outgoing players and two
incoming players. -/
def wNodeC5 : Node :=
  .elem "div" ["planNode"] []
    [ .elem "p" ["text-lg font-light"] [] [.text "GW10"],
      .elem "div" ["max-w-22"] []
        [ .elem "div" ["opacity-50"] []
            [ .elem "p" [] [] [.text "Salah"],
              .elem "p" [] [] [.text "Son"],
              .elem "p" [] [] [.text "Palmer"] ],
          .elem "svg" ["arrow-down"] [] [],
          .elem "div" [] []
            [ .elem "p" [] [] [.text "Haaland"],
              .elem "p" [] [] [.text "Watkins"] ] ] ]

/-- A plan region with only a gameweek label. -/
def wNodeBare : Node :=
  .elem "div" ["planNode"] [] [.elem "p" ["text-lg font-light"] [] [.text "GW2"]]

/-- A plan region with a grade span but no gameweek label. -/
def wNodeNoGw : Node :=
  .elem "div" ["planNode"] [] [.elem "span" ["text-2xl font-semibold"] [] [.text "A-"]]

/-! ### Helper lemmas about Python `min(..., key=...)` -/

theorem pyMinByAux_mem (key : Rat → Rat) (b : Rat) (l : List Rat) :
    pyMinByAux key b l ∈ b :: l := by
  induction l generalizing b with
  | nil => simp [pyMinByAux]
  | cons x xs ih =>
    by_cases hlt : key x < key b
    · simp only [pyMinByAux, if_pos hlt]
      rcases List.mem_cons.mp (ih x) with h | h
      · rw [h]; exact List.mem_cons_of_mem _ (List.mem_cons_self _ _)
      · exact List.mem_cons_of_mem _ (List.mem_cons_of_mem _ h)
    · simp only [pyMinByAux, if_neg hlt]
      rcases List.mem_cons.mp (ih b) with h | h
      · rw [h]; exact List.mem_cons_self _ _
      · exact List.mem_cons_of_mem _ (List.mem_cons_of_mem _ h)

theorem pyMinByAux_le (key : Rat → Rat) (b : Rat) (l : List Rat) :
    ∀ a ∈ b :: l, key (pyMinByAux key b l) ≤ key a := by
  induction l generalizing b with
  | nil =>
    intro a ha
    rcases List.mem_cons.mp ha with ha | ha
    · simp [pyMinByAux, ha]
    · simp at ha
  | cons x xs ih =>
    intro a ha
    by_cases hlt : key x < key b
    · simp only [pyMinByAux, if_pos hlt]
      rcases List.mem_cons.mp ha with ha | ha
      · exact ha ▸ le_of_lt (lt_of_le_of_lt (ih x x (List.mem_cons_self _ _)) hlt)
      · exact ih x a ha
    · simp only [pyMinByAux, if_neg hlt]
      rcases List.mem_cons.mp ha with ha | ha
      · exact ha ▸ ih b b (List.mem_cons_self _ _)
      · rcases List.mem_cons.mp ha with ha | ha
        · exact ha ▸ le_trans (ih b b (List.mem_cons_self _ _)) (le_of_not_lt hlt)
        · exact ih b a (List.mem_cons_of_mem _ ha)

theorem pyMinByAux_eq_init (key : Rat → Rat) (b : Rat) (l : List Rat) :
    key (pyMinByAux key b l) = key b → pyMinByAux key b l = b := by
  induction l generalizing b with
  | nil => intro _; rfl
  | cons x xs ih =>
    by_cases hlt : key x < key b
    · simp only [pyMinByAux, if_pos hlt]
      intro hk
      exfalso
      have h1 : key (pyMinByAux key x xs) ≤ key x :=
        pyMinByAux_le key x xs x (List.mem_cons_self _ _)
      exact absurd (hk ▸ lt_of_le_of_lt h1 hlt) (lt_irrefl _)
    · simp only [pyMinByAux, if_neg hlt]
      exact ih b

theorem pyMinByAux_tie (key : Rat → Rat) (b : Rat) (l : List Rat)
    (hs : (b :: l).Sorted (· ≤ ·)) :
    ∀ a ∈ b :: l, key a = key (pyMinByAux key b l) → pyMinByAux key b l ≤ a := by
  induction l generalizing b with
  | nil =>
    intro a ha _
    rcases List.mem_cons.mp ha with ha | ha
    · simp [pyMinByAux, ha]
    · simp at ha
  | cons x xs ih =>
    have hbx : b ≤ x := (List.sorted_cons.mp hs).1 x (List.mem_cons_self _ _)
    have hsx : (x :: xs).Sorted (· ≤ ·) := (List.sorted_cons.mp hs).2
    have hsbxs : (b :: xs).Sorted (· ≤ ·) := by
      rw [List.sorted_cons]
      exact ⟨fun y hy => (List.sorted_cons.mp hs).1 y (List.mem_cons_of_mem _ hy),
        (List.sorted_cons.mp hsx).2⟩
    intro a ha hk
    by_cases hlt : key x < key b
    · simp only [pyMinByAux, if_pos hlt] at hk ⊢
      rcases List.mem_cons.mp ha with ha | ha
      · exfalso
        have h1 : key (pyMinByAux key x xs) ≤ key x :=
          pyMinByAux_le key x xs x (List.mem_cons_self _ _)
        rw [ha] at hk
        exact absurd (hk ▸ lt_of_le_of_lt h1 hlt) (lt_irrefl _)
      · exact ih x hsx a ha hk
    · simp only [pyMinByAux, if_neg hlt] at hk ⊢
      rcases List.mem_cons.mp ha with ha | ha
      · exact ih b hsbxs a (ha ▸ List.mem_cons_self _ _) hk
      · rcases List.mem_cons.mp ha with ha | ha
        · -- `a = x` achieves the minimum; then the initial `b` does as well,
          -- so the earliest minimum is `b` itself, which precedes `x`.
          have h1 : key (pyMinByAux key b xs) ≤ key b :=
            pyMinByAux_le key b xs b (List.mem_cons_self _ _)
          have h2 : key (pyMinByAux key b xs) = key b := by
            refine le_antisymm h1 ?_
            rw [ha] at hk
            exact le_trans (le_of_not_lt hlt) (le_of_eq hk)
          rw [pyMinByAux_eq_init key b xs h2]
          exact ha ▸ hbx
        · exact ih b hsbxs a (List.mem_cons_of_mem _ ha) hk

/-! ### Claim theorems about `apply_solver_settings` -/

/-- C3: For every desired disruption probability `p ∈ [0,1]`, the preset
value chosen by `apply_solver_settings` is the element of
`{0, 1/4, 1/2, 3/4, 1}` minimizing the absolute distance to `p`, and a tie
between two equidistant anchors resolves to the lower anchor (the
left-to-right strict-improvement scan of Python's `min`). -/
theorem closest_preset_minimizes (p : Rat) (h0 : 0 ≤ p) (h1 : p ≤ 1) :
    closest_value p ∈ presetKeys ∧
    (∀ a ∈ presetKeys, |closest_value p - p| ≤ |a - p|) ∧
    (∀ a ∈ presetKeys, |a - p| = |closest_value p - p| → closest_value p ≤ a) := by
  have hkeys : presetKeys = [0, 1/4, 1/2, 3/4, 1] := by
    simp [presetKeys, presets]
  have hsorted : ((0 : Rat) :: [1/4, 1/2, 3/4, 1]).Sorted (· ≤ ·) := by
    norm_num [List.sorted_cons]
  have hmem := pyMinByAux_mem (fun x => |x - p|) 0 [1/4, 1/2, 3/4, 1]
  have hle := pyMinByAux_le (fun x => |x - p|) 0 [1/4, 1/2, 3/4, 1]
  have htie := pyMinByAux_tie (fun x => |x - p|) 0 [1/4, 1/2, 3/4, 1] hsorted
  rw [hkeys]
  unfold closest_value
  exact ⟨hmem, hle, fun a ha hEq => htie a ha hEq⟩

theorem closest_preset_minimizes_witness :
    (0 : Rat) ≤ 1 ∧ (1 : Rat) ≤ 1 ∧
    (closest_value 1 ∈ presetKeys ∧
      (∀ a ∈ presetKeys, |closest_value 1 - 1| ≤ |a - 1|) ∧
      (∀ a ∈ presetKeys, |a - 1| = |closest_value 1 - 1| → closest_value 1 ≤ a)) :=
  ⟨zero_le_one, le_refl 1, closest_preset_minimizes 1 zero_le_one (le_refl 1)⟩

/-- The decision-disruption flow issues no slider keystrokes. -/
theorem decisionPart_no_keys (page : SolverPage) (settings : SettingsDict) :
    (decisionPart page settings).2.count .pressHome = 0 ∧
    (decisionPart page settings).2.count .pressArrowRight = 0 := by
  simp only [decisionPart]
  constructor <;> (split_ifs <;> simp [List.count_cons, List.count_nil])

/-- C4: the desired horizon is clamped into the slider's `[min, max]`
range; when the current value differs from the clamped target the flow
presses Home once and issues exactly `target − min` increment keys; with
`min = 1`, `max = 10` and a desired horizon in `[1, 10]` that is exactly
`target − 1` increments. -/
theorem horizon_clamp_and_step_count (page : SolverPage) (settings : SettingsDict)
    (hbtn : 0 < page.horizon_button_count) (hsl : 0 < page.slider_count)
    (mn mx cur hw target : Int)
    (hmn : mn = page.aria_valuemin.getD 1) (hmx : mx = page.aria_valuemax.getD 10)
    (hcur : cur = page.aria_valuenow.getD 10) (hhw : hw = settings.horizon_weeks.getD 10)
    (htgt : target = max mn (min hw mx)) :
    (mn ≤ mx → mn ≤ target ∧ target ≤ mx) ∧
    (cur ≠ target →
      (∃ suffix, (apply_solver_settings page settings).actions
          = [.clickHorizonButton, .focusSlider, .pressHome]
              ++ List.replicate (target - mn).toNat .pressArrowRight ++ suffix) ∧
      (apply_solver_settings page settings).actions.count .pressHome = 1 ∧
      (apply_solver_settings page settings).actions.count .pressArrowRight
        = (target - mn).toNat) ∧
    (mn = 1 → mx = 10 → 1 ≤ hw → hw ≤ 10 → cur ≠ hw →
      (apply_solver_settings page settings).actions.count .pressArrowRight
        = (hw - 1).toNat) := by
  have hAct : ∀ _ : cur ≠ target,
      (apply_solver_settings page settings).actions
        = ([UIAction.clickHorizonButton, .focusSlider, .pressHome]
            ++ List.replicate (target - mn).toNat .pressArrowRight ++ [.pressEscape])
          ++ (decisionPart page settings).2 := by
    intro hne
    subst hmn hmx hcur hhw htgt
    simp only [apply_solver_settings, horizonPart]
    rw [if_pos hbtn, if_pos hsl, if_pos hne]
  rcases decisionPart_no_keys page settings with ⟨hdh, hda⟩
  have hcounts : ∀ _ : cur ≠ target,
      (apply_solver_settings page settings).actions.count .pressHome = 1 ∧
      (apply_solver_settings page settings).actions.count .pressArrowRight
        = (target - mn).toNat := by
    intro hne
    rw [hAct hne]
    constructor <;>
      simp [List.count_append, List.count_replicate, List.count_cons, hdh, hda]
  refine ⟨?_, ?_, ?_⟩
  · intro hmm
    subst htgt
    exact ⟨le_max_left _ _, max_le hmm (min_le_right _ _)⟩
  · intro hne
    exact ⟨⟨[UIAction.pressEscape] ++ (decisionPart page settings).2,
        by rw [hAct hne]; simp⟩, hcounts hne⟩
  · intro hm1 hm10 hlo hhi hnehw
    have htw : target = hw := by subst htgt hm1 hm10; omega
    have hne : cur ≠ target := by rw [htw]; exact hnehw
    have := (hcounts hne).2
    rw [htw, hm1] at this
    exact this

theorem horizon_clamp_and_step_count_witness :
    0 < (1 : Nat) ∧ (10 : Int) ≠ 4 ∧
    ((1 : Int) ≤ 10 → (1 : Int) ≤ 4 ∧ (4 : Int) ≤ 10) ∧
    ((10 : Int) ≠ 4 →
      (∃ suffix,
          (apply_solver_settings
              ⟨1, 1, some 1, some 10, some 10, some 4, 0, false, 0, fun _ => 0⟩
              ⟨some 4, none, none⟩).actions
            = [.clickHorizonButton, .focusSlider, .pressHome]
                ++ List.replicate ((4 : Int) - 1).toNat .pressArrowRight ++ suffix) ∧
      (apply_solver_settings
          ⟨1, 1, some 1, some 10, some 10, some 4, 0, false, 0, fun _ => 0⟩
          ⟨some 4, none, none⟩).actions.count .pressHome = 1 ∧
      (apply_solver_settings
          ⟨1, 1, some 1, some 10, some 10, some 4, 0, false, 0, fun _ => 0⟩
          ⟨some 4, none, none⟩).actions.count .pressArrowRight = ((4 : Int) - 1).toNat) :=
  ⟨Nat.one_pos, by decide,
    (horizon_clamp_and_step_count
      ⟨1, 1, some 1, some 10, some 10, some 4, 0, false, 0, fun _ => 0⟩
      ⟨some 4, none, none⟩ Nat.one_pos Nat.one_pos 1 10 10 4 4
      rfl rfl rfl rfl (by decide)).1,
    fun h =>
      ((horizon_clamp_and_step_count
        ⟨1, 1, some 1, some 10, some 10, some 4, 0, false, 0, fun _ => 0⟩
        ⟨some 4, none, none⟩ Nat.one_pos Nat.one_pos 1 10 10 4 4
        rfl rfl rfl rfl (by decide)).2).1 h⟩

/-- C7: the returned value of `apply_solver_settings` is the logical OR of
the two per-field success flags; the decision-disruption flag depends only
on the decision-side observations (so it is evaluated the same way no
matter what the horizon flow saw); and with the horizon button absent but
the decision path present, the call still reports decision success and
returns `true` (partial success counts as success). -/
theorem apply_settings_or_and_independent (page : SolverPage) (settings : SettingsDict) :
    (apply_solver_settings page settings).returned
      = ((apply_solver_settings page settings).horizon_success
          || (apply_solver_settings page settings).decision_success) ∧
    (∀ page' : SolverPage,
      page'.settings_wheel_count = page.settings_wheel_count →
      page'.settings_button_visible = page.settings_button_visible →
      page'.optimisation_tab_count = page.optimisation_tab_count →
      page'.preset_button_count = page.preset_button_count →
      (apply_solver_settings page' settings).decision_success
        = (apply_solver_settings page settings).decision_success) ∧
    (page.horizon_button_count = 0 → 0 < page.settings_wheel_count →
      page.settings_button_visible = true → 0 < page.optimisation_tab_count →
      0 < page.preset_button_count
        (presetName (closest_value (settings.decision_disruption_probability.getD (1/2)))) →
      (apply_solver_settings page settings).horizon_success = false ∧
      (apply_solver_settings page settings).decision_success = true ∧
      (apply_solver_settings page settings).returned = true) := by
  refine ⟨rfl, ?_, ?_⟩
  · intro page' hw hv ht hp
    show (decisionPart page' settings).1 = (decisionPart page settings).1
    simp only [decisionPart, hw, hv, ht, hp]
  · intro hh hw hv ht hp
    have hd : (decisionPart page settings).1 = true := by
      simp only [decisionPart]
      rw [if_pos hw, if_pos hv, if_pos ht, if_pos hp]
    have hhs : (horizonPart page settings).1 = false := by
      simp only [horizonPart, hh]
      simp
    exact ⟨hhs, hd, by
      show ((horizonPart page settings).1 || (decisionPart page settings).1) = true
      rw [hhs, hd]
      rfl⟩

theorem apply_settings_or_and_independent_witness :
    ((⟨0, 0, none, none, none, none, 1, true, 1, fun _ => 1⟩ : SolverPage).horizon_button_count = 0
      ∧ 0 < (1 : Nat) ∧ True) ∧
    ((apply_solver_settings ⟨0, 0, none, none, none, none, 1, true, 1, fun _ => 1⟩
        ⟨none, none, none⟩).horizon_success = false ∧
     (apply_solver_settings ⟨0, 0, none, none, none, none, 1, true, 1, fun _ => 1⟩
        ⟨none, none, none⟩).decision_success = true ∧
     (apply_solver_settings ⟨0, 0, none, none, none, none, 1, true, 1, fun _ => 1⟩
        ⟨none, none, none⟩).returned = true) :=
  ⟨⟨rfl, Nat.one_pos, trivial⟩,
    ((apply_settings_or_and_independent
        ⟨0, 0, none, none, none, none, 1, true, 1, fun _ => 1⟩
        ⟨none, none, none⟩).2.2 rfl Nat.one_pos rfl Nat.one_pos Nat.one_pos)⟩

/-- C9: when the settings mapping has no `decision_disruption_probability`
key, `apply_solver_settings` behaves exactly as if the key were present
with value `0.5`; the preset for `0.5` is "Cloudy", and when the whole
decision path is present the "Cloudy" preset button is clicked and the
decision flag reports success. -/
theorem missing_disruption_defaults_to_cloudy (page : SolverPage) (settings : SettingsDict)
    (hnone : settings.decision_disruption_probability = none) :
    apply_solver_settings page settings
      = apply_solver_settings page
          { settings with decision_disruption_probability := some (1/2) } ∧
    presetName (closest_value (1/2)) = "Cloudy" ∧
    (0 < page.settings_wheel_count → page.settings_button_visible = true →
      0 < page.optimisation_tab_count → 0 < page.preset_button_count "Cloudy" →
      (apply_solver_settings page settings).decision_success = true ∧
      UIAction.clickPreset "Cloudy" ∈ (apply_solver_settings page settings).actions) := by
  have hcv : closest_value (1/2) = 1/2 := by
    norm_num [closest_value, pyMinByAux, abs_of_nonneg, abs_of_nonpos]
  have hb1 : (((0 : Rat)) == 1/2) = false := by
    rw [beq_eq_false_iff_ne]
    norm_num
  have hb2 : (((1 : Rat)/4) == 1/2) = false := by
    rw [beq_eq_false_iff_ne]
    norm_num
  have hb3 : (((1 : Rat)/2) == 1/2) = true := by
    rw [beq_iff_eq]
  have hcloudy : presetName (closest_value (1/2)) = "Cloudy" := by
    rw [hcv]
    simp only [presetName, presets, List.find?, hb1, hb2, hb3]
    rfl
  refine ⟨?_, hcloudy, ?_⟩
  · simp [apply_solver_settings, horizonPart, decisionPart, hnone]
  · intro hw hv ht hp
    have hd : decisionPart page settings
        = (true, [.clickSettingsWheel, .clickSettingsButton, .clickOptimisationTab,
                  .clickPreset "Cloudy", .pressEscape]) := by
      simp only [decisionPart, hnone, Option.getD, hcloudy]
      rw [if_pos hw, if_pos hv, if_pos ht, if_pos hp]
    constructor
    · show (decisionPart page settings).1 = true
      rw [hd]
    · show UIAction.clickPreset "Cloudy"
        ∈ (horizonPart page settings).2 ++ (decisionPart page settings).2
      refine List.mem_append_right _ ?_
      rw [hd]
      simp

theorem missing_disruption_defaults_to_cloudy_witness :
    (⟨none, none, none⟩ : SettingsDict).decision_disruption_probability = none ∧
    presetName (closest_value (1/2)) = "Cloudy" ∧
    ((apply_solver_settings ⟨0, 0, none, none, none, none, 1, true, 1, fun _ => 1⟩
        ⟨none, none, none⟩).decision_success = true ∧
      UIAction.clickPreset "Cloudy"
        ∈ (apply_solver_settings ⟨0, 0, none, none, none, none, 1, true, 1, fun _ => 1⟩
            ⟨none, none, none⟩).actions) :=
  ⟨rfl,
    (missing_disruption_defaults_to_cloudy
      ⟨0, 0, none, none, none, none, 1, true, 1, fun _ => 1⟩ ⟨none, none, none⟩ rfl).2.1,
    (missing_disruption_defaults_to_cloudy
      ⟨0, 0, none, none, none, none, 1, true, 1, fun _ => 1⟩ ⟨none, none, none⟩ rfl).2.2
      Nat.one_pos rfl Nat.one_pos Nat.one_pos⟩

/-! ### Claim theorems about the solve-completion poll (C1) -/

/-- C1, counterexample: with `timeout_seconds = 0` the `while` guard
`time.time() - start_time < timeout_seconds` is false at once, so the loop
body never runs: the number of completion checks is `0`, not the one check
the claim requires — even when the "Preview Result" marker would have been
visible at the first check. -/
theorem wait_zero_one_check_cex :
    ¬ ((wait_for_solve_completion (fun _ => true) 0).2 = 1) := by
  simp [wait_for_solve_completion, waitFrom]

/-- C1, amended: with `timeout_seconds = 0` the poll loop performs zero
completion checks (its guard fails immediately) and reports
`completed = false`, and `run_solve_on_page` still captures whatever
markup is available. -/
theorem wait_zero_best_effort_capture (page : SolvePage)
    (h : page.optimise_visible = true) :
    wait_for_solve_completion page.preview_visible 0 = (false, 0) ∧
    run_solve_on_page page 0
      = some { completed := false, checks := 0, html := page.content } := by
  have hw : wait_for_solve_completion page.preview_visible 0 = (false, 0) := by
    simp [wait_for_solve_completion, waitFrom]
  exact ⟨hw, by simp [run_solve_on_page, h, hw]⟩

theorem wait_zero_best_effort_capture_witness :
    (⟨true, fun _ => true, "markup"⟩ : SolvePage).optimise_visible = true ∧
    (wait_for_solve_completion
        (SolvePage.preview_visible ⟨true, fun _ => true, "markup"⟩) 0 = (false, 0) ∧
      run_solve_on_page ⟨true, fun _ => true, "markup"⟩ 0 = some ⟨false, 0, "markup"⟩) :=
  ⟨rfl, wait_zero_best_effort_capture ⟨true, fun _ => true, "markup"⟩ rfl⟩

/-! ### Claim theorems about `parse_results_html` -/

/-- C2: the parse never fails and missing or unparseable fields degrade to
defaults: with no evaluation region the three numeric summary fields stay
`0.0`/`0`/`0.0`; with the region present, a missing points span or an
unparseable points text leaves `total_points = 0`, and no summary lines
leave `total_transfers = 0` and `final_bank = 0`; and inside any emitted
plan, a missing grade span leaves `grade` and `points_range` empty, no
eligible info lines leave `transfers_used` and `bank` empty, and a missing
transfer region leaves `transfers` empty. -/
theorem parse_missing_fields_default :
    (∀ soup : Node,
      (findEvalNode soup = none →
        (parse_results_html soup).total_points = 0 ∧
        (parse_results_html soup).total_transfers = 0 ∧
        (parse_results_html soup).final_bank = 0) ∧
      (∀ en, findEvalNode soup = some en →
        (evalPtsSpan en = none → (parse_results_html soup).total_points = 0) ∧
        (∀ sp, evalPtsSpan en = some sp → pyFloat (getTextStrip sp) = none →
          (parse_results_html soup).total_points = 0) ∧
        (summaryPs en = [] →
          (parse_results_html soup).total_transfers = 0 ∧
          (parse_results_html soup).final_bank = 0))) ∧
    (∀ node ancs plan, parsePlanNode node ancs = some plan →
      (planGradeDesc node = none → plan.grade = "" ∧ plan.points_range = "") ∧
      (planInfoPs node = [] → plan.transfers_used = "" ∧ plan.bank = "") ∧
      (planTransferDiv node = none → plan.transfers = [])) := by
  constructor
  · intro soup
    constructor
    · intro h
      refine ⟨?_, ?_, ?_⟩ <;>
        simp [parse_results_html, evalTotalPoints, evalBankTransfers, h]
    · intro en hen
      refine ⟨?_, ?_, ?_⟩
      · intro hsp
        simp [parse_results_html, evalTotalPoints, hen, hsp]
      · intro sp hsp hf
        simp [parse_results_html, evalTotalPoints, hen, hsp, hf]
      · intro hps
        constructor <;>
          simp [parse_results_html, evalBankTransfers, hen, hps]
  · intro node ancs plan hp
    simp only [parsePlanNode] at hp
    cases hgw : planGwElem node with
    | none => rw [hgw] at hp; exact absurd hp (by simp)
    | some gw =>
      rw [hgw] at hp
      simp only [Option.some.injEq] at hp
      subst hp
      refine ⟨?_, ?_, ?_⟩
      · intro hg
        constructor <;> simp [hg]
      · intro hi
        constructor <;> simp [hi]
      · intro ht
        simp [planTransfers, planOutPlayers, ht]

theorem parse_missing_fields_default_witness :
    findEvalNode (.text "x") = none ∧
    ((parse_results_html (.text "x")).total_points = 0 ∧
      (parse_results_html (.text "x")).total_transfers = 0 ∧
      (parse_results_html (.text "x")).final_bank = 0) ∧
    parsePlanNode wNodeBare [] = some ⟨"GW2", "", "", "", "", []⟩ ∧
    planGradeDesc wNodeBare = none ∧
    ((⟨"GW2", "", "", "", "", []⟩ : GameweekPlan).grade = ""
      ∧ (⟨"GW2", "", "", "", "", []⟩ : GameweekPlan).points_range = "") :=
  ⟨rfl, (parse_missing_fields_default.1 (.text "x")).1 rfl, rfl, rfl,
    (parse_missing_fields_default.2 wNodeBare [] ⟨"GW2", "", "", "", "", []⟩ rfl).1 rfl⟩

/-- C5: the transfers of every emitted plan are the positional pairing of
the outgoing-player list with the incoming-player list, truncated to the
shorter length. -/
theorem transfers_positional_truncating_zip :
    ∀ node ancs plan, parsePlanNode node ancs = some plan →
      plan.transfers.length
          = min (planOutPlayers node).length (planInPlayers node).length ∧
      ∀ (i : Nat) (h1 : i < plan.transfers.length)
        (h2 : i < (planOutPlayers node).length) (h3 : i < (planInPlayers node).length),
        plan.transfers.get ⟨i, h1⟩
          = ⟨(planOutPlayers node).get ⟨i, h2⟩, (planInPlayers node).get ⟨i, h3⟩⟩ := by
  intro node ancs plan hp
  have htr : plan.transfers = planTransfers node := by
    simp only [parsePlanNode] at hp
    cases hgw : planGwElem node with
    | none => rw [hgw] at hp; exact absurd hp (by simp)
    | some gw =>
      rw [hgw] at hp
      simp only [Option.some.injEq] at hp
      rw [← hp]
  rw [htr]
  constructor
  · simp [planTransfers, List.length_zip, inf_eq_min]
  · intro i h1 h2 h3
    simp [planTransfers, List.get_eq_getElem, List.getElem_map, List.getElem_zip]

theorem transfers_positional_truncating_zip_witness :
    parsePlanNode wNodeC5 []
        = some ⟨"GW10", "", "", "", "",
            [⟨"Salah", "Haaland"⟩, ⟨"Son", "Watkins"⟩]⟩ ∧
    (⟨"GW10", "", "", "", "",
        [⟨"Salah", "Haaland"⟩, ⟨"Son", "Watkins"⟩]⟩ : GameweekPlan).transfers.length
      = min (planOutPlayers wNodeC5).length (planInPlayers wNodeC5).length :=
  ⟨rfl,
    (transfers_positional_truncating_zip wNodeC5 []
      ⟨"GW10", "", "", "", "", [⟨"Salah", "Haaland"⟩, ⟨"Son", "Watkins"⟩]⟩ rfl).1⟩

/-- C6: for every input document the emitted `gameweek_plans` sequence is
non-decreasing in `gw_sort_key` (the first integer embedded in the
gameweek label), and a label without digits gets sort key `0`. -/
theorem gameweek_plans_sorted :
    (∀ soup : Node,
      ((parse_results_html soup).gameweek_plans).Pairwise
        (fun a b => gw_sort_key a ≤ gw_sort_key b)) ∧
    (∀ plan : GameweekPlan, digitSearchS plan.gameweek = none → gw_sort_key plan = 0) := by
  constructor
  · intro soup
    have htrans : ∀ a b c : GameweekPlan,
        (decide (gw_sort_key a ≤ gw_sort_key b)) = true →
        (decide (gw_sort_key b ≤ gw_sort_key c)) = true →
        (decide (gw_sort_key a ≤ gw_sort_key c)) = true := by
      intro a b c h1 h2
      simp only [decide_eq_true_eq] at h1 h2 ⊢
      omega
    have htotal : ∀ a b : GameweekPlan,
        ((decide (gw_sort_key a ≤ gw_sort_key b))
          || (decide (gw_sort_key b ≤ gw_sort_key a))) = true := by
      intro a b
      simpa using Nat.le_total (gw_sort_key a) (gw_sort_key b)
    have h := List.sorted_mergeSort htrans htotal
      ((planNodesWithAnc soup).filterMap (fun na => parsePlanNode na.1 na.2))
    simp only [decide_eq_true_eq] at h
    simpa [parse_results_html] using h
  · intro plan h
    simp [gw_sort_key, h]

theorem gameweek_plans_sorted_witness :
    digitSearchS ((⟨"GWx", "", "", "", "", []⟩ : GameweekPlan).gameweek) = none ∧
    gw_sort_key ⟨"GWx", "", "", "", "", []⟩ = 0 :=
  ⟨rfl, gameweek_plans_sorted.2 ⟨"GWx", "", "", "", "", []⟩ rfl⟩

/-- C8: parsing is deterministic — parsing equal markup yields equal
`SolveResults`, field by field, including the ordered plans. -/
theorem parse_results_deterministic :
    ∀ s t : Node, s = t →
      (parse_results_html s).total_points = (parse_results_html t).total_points ∧
      (parse_results_html s).total_transfers = (parse_results_html t).total_transfers ∧
      (parse_results_html s).final_bank = (parse_results_html t).final_bank ∧
      (parse_results_html s).gameweek_plans = (parse_results_html t).gameweek_plans := by
  rintro s t rfl
  exact ⟨rfl, rfl, rfl, rfl⟩

theorem parse_results_deterministic_witness :
    (Node.text "x") = (Node.text "x") ∧
    ((parse_results_html (.text "x")).total_points
        = (parse_results_html (.text "x")).total_points ∧
      (parse_results_html (.text "x")).total_transfers
        = (parse_results_html (.text "x")).total_transfers ∧
      (parse_results_html (.text "x")).final_bank
        = (parse_results_html (.text "x")).final_bank ∧
      (parse_results_html (.text "x")).gameweek_plans
        = (parse_results_html (.text "x")).gameweek_plans) :=
  ⟨rfl, parse_results_deterministic (.text "x") (.text "x") rfl⟩

/-- Generic helper: `filterMap` keeps exactly the elements on which the
function is `some`. -/
theorem length_filterMap_eq_length_filter_isSome {α β : Type} (f : α → Option β)
    (l : List α) :
    (l.filterMap f).length = (l.filter (fun a => (f a).isSome)).length := by
  induction l with
  | nil => rfl
  | cons x xs ih =>
    cases hx : f x <;> simp [List.filterMap_cons, List.filter_cons, hx, ih]

/-- C10: a plan region without the gameweek-label text node produces no
`GameweekPlan` at all (the `continue` path), so the emitted plans number
exactly the plan regions whose label element is present. -/
theorem plan_without_label_skipped :
    (∀ node ancs, parsePlanNode node ancs = none ↔ planGwElem node = none) ∧
    (∀ soup : Node,
      (parse_results_html soup).gameweek_plans.length
        = ((planNodesWithAnc soup).filter
            (fun na => (planGwElem na.1).isSome)).length) := by
  have hiff : ∀ node ancs, parsePlanNode node ancs = none ↔ planGwElem node = none := by
    intro node ancs
    simp only [parsePlanNode]
    cases hgw : planGwElem node <;> simp
  refine ⟨hiff, ?_⟩
  intro soup
  have h1 : (parse_results_html soup).gameweek_plans.length
      = ((planNodesWithAnc soup).filterMap (fun na => parsePlanNode na.1 na.2)).length := by
    simp [parse_results_html, List.length_mergeSort]
  rw [h1, length_filterMap_eq_length_filter_isSome]
  congr 1
  apply List.filter_congr
  intro na _
  cases hgw : planGwElem na.1 with
  | none =>
    have hn := (hiff na.1 na.2).mpr hgw
    simp [hn, hgw]
  | some gw =>
    have hne : parsePlanNode na.1 na.2 ≠ none := by
      intro hcontra
      have hc := (hiff na.1 na.2).mp hcontra
      rw [hgw] at hc
      exact Option.noConfusion hc
    simp [hgw, Option.isSome_iff_ne_none, hne]

theorem plan_without_label_skipped_witness :
    planGwElem wNodeNoGw = none ∧
    parsePlanNode wNodeNoGw [] = none ∧
    (parse_results_html (.elem "html" [] [] [wNodeNoGw])).gameweek_plans.length
      = ((planNodesWithAnc (.elem "html" [] [] [wNodeNoGw])).filter
          (fun na => (planGwElem na.1).isSome)).length :=
  ⟨rfl, (plan_without_label_skipped.1 wNodeNoGw []).mpr rfl,
    plan_without_label_skipped.2 (.elem "html" [] [] [wNodeNoGw])⟩
